import Mathlib

/-!
Verification of the job-control core of the SimpleShell implementation
(`LinuxShell_Assignment2.cpp`).  The C++ source is shallowly embedded:
the job table is a `List Job`, the syscall-facing parts (terminal
handoff, signals, `waitpid` outcomes, the file system) are modelled as
explicit event traces and oracles, and every embedded function mirrors
the corresponding C++ function line by line.
-/

set_option maxHeartbeats 1000000

/-- One entry of the shell's job table, mirroring `struct Job`
(source lines 29-35).  `status` uses the source's integer encoding:
0 running, 1 stopped, 2 done. -/
structure Job where
  id : Nat
  pgid : Nat
  cmdline : String
  is_background : Bool
  status : Nat
deriving DecidableEq, Repr

/-- One pipeline stage, mirroring `struct Command` (source lines 84-89).
As in the source, an absent redirection is the empty string. -/
structure Command where
  argv : List String
  infile : String
  outfile : String
  append : Bool
deriving DecidableEq, Repr

/-- Outcome reported by a blocking `waitpid(-pgid, &status, WUNTRACED)`:
the waited group exited, was killed by a signal, or stopped. -/
inductive WaitOutcome
  | exited
  | signaled
  | stoppedW
deriving DecidableEq, Repr

/-- Externally visible actions of the shell process, used to state
ordering properties about terminal handoff (`tcsetpgrp`), `kill`,
`waitpid` and job bookkeeping. -/
inductive Event
  | sigcont (pgid : Nat)
  | handToGroup (pgid : Nat)
  | waitOn (pgid : Nat)
  | reclaim (pgid : Nat)
  | markStopped (pgid : Nat)
  | markDone (pgid : Nat)
  | setStatus (st : Nat)
  | errMsg (s : String)
  | outMsg (s : String)
deriving DecidableEq, Repr

/-- `add_job` (source lines 126-130): append a fresh Running job and
return the updated table, the new job's id, and the next free id. -/
def add_job (jobs : List Job) (next_job_id : Nat) (pgid : Nat)
    (cmdline : String) (bg : Bool) : List Job × Nat × Nat :=
  let j : Job := ⟨next_job_id, pgid, cmdline, bg, 0⟩
  (jobs ++ [j], j.id, next_job_id + 1)

/-- `mark_job_as_done` (source lines 132-134): set `status = 2` on every
job whose `pgid` matches, unconditionally. -/
def mark_job_as_done (jobs : List Job) (pgid : Nat) : List Job :=
  jobs.map (fun j => if j.pgid = pgid then { j with status := 2 } else j)

/-- `mark_job_as_stopped` (source lines 136-138): set `status = 1` on
every job whose `pgid` matches, unconditionally. -/
def mark_job_as_stopped (jobs : List Job) (pgid : Nat) : List Job :=
  jobs.map (fun j => if j.pgid = pgid then { j with status := 1 } else j)

/-- `remove_completed_jobs` (source lines 140-142): erase every job with
`status == 2`. -/
def remove_completed_jobs (jobs : List Job) : List Job :=
  jobs.filter (fun j => j.status ≠ 2)

/-- Replace the element at position `i` by `f` of it; used to model the
C++ pattern of mutating a job through the pointer returned by a lookup. -/
def updateAt : List Job → Nat → (Job → Job) → List Job
  | [], _, _ => []
  | j :: rest, 0, f => f j :: rest
  | j :: rest, Nat.succ i, f => j :: updateAt rest i f

/-- Index form of `find_job_by_id` (source lines 144-146): position of
the first job with the given id, i.e. the job the returned pointer
refers to. -/
def find_job_by_id_idx (jobs : List Job) (id : Int) : Option Nat :=
  jobs.findIdx? (fun j => (j.id : Int) == id)

/-- The continued branch of `sigchld_handler` (source line 328):
`find_job_by_pgid` returns the first job with the given pgid and its
`status` is set to 0 through the pointer. -/
def set_first_running : List Job → Nat → List Job
  | [], _ => []
  | j :: rest, pgid =>
    if j.pgid = pgid then { j with status := 0 } :: rest
    else j :: set_first_running rest pgid

/-- `is_builtin` (source lines 157-161). -/
def is_builtin (argv : List String) : Bool :=
  match argv with
  | [] => false
  | cmd :: _ => cmd = "cd" || cmd = "exit" || cmd = "jobs" || cmd = "fg" || cmd = "bg"

/-- Digits part of `std::stoi`: after sign handling, a non-empty run of
decimal digits is required (`std::invalid_argument` otherwise), and the
value must fit the source's 32-bit `int` (`std::out_of_range`
otherwise); either throw is modelled as `.error ()`. -/
def stoi_digits (cs : List Char) (neg : Bool) : Except Unit Int :=
  let ds := cs.takeWhile Char.isDigit
  if ds = [] then .error ()
  else
    let v : Nat := ds.foldl (fun a c => a * 10 + (c.toNat - 48)) 0
    let r : Int := if neg then -(v : Int) else (v : Int)
    if r < -2147483648 ∨ 2147483647 < r then .error ()
    else .ok r

/-- `std::stoi` as used at source lines 182 and 202: skip leading
whitespace, accept an optional sign, then require decimal digits that
fit in `int`; an uncaught `std::invalid_argument` or
`std::out_of_range` is modelled as `.error ()`. -/
def stoi (s : String) : Except Unit Int :=
  let cs := s.toList.dropWhile
    (fun c => c == ' ' || c == '\t' || c == '\n' || c == '\r')
  match cs with
  | '-' :: rest => stoi_digits rest true
  | '+' :: rest => stoi_digits rest false
  | rest => stoi_digits rest false

/-- Job-argument parsing shared by `fg` and `bg` (source lines 181-182,
201-202): `id = -1` when no argument is given, else strip a leading `%`
and call `stoi`. -/
def parse_job_arg (argv : List String) : Except Unit Int :=
  match argv.get? 1 with
  | none => .ok (-1)
  | some s =>
    let s2 := if 0 < s.length ∧ s.front = '%' then s.drop 1 else s
    stoi s2

/-- Target-job resolution of `fg`/`bg` (source lines 183, 203):
`find_last_job()` when `id == -1`, else `find_job_by_id(id)`; returns
the index the C++ pointer refers to. -/
def resolve_job_index (jobs : List Job) (id : Int) : Option Nat :=
  if id = -1 then
    if jobs = [] then none else some (jobs.length - 1)
  else find_job_by_id_idx jobs id

/-- Result of running a builtin: return value, job table left behind,
trace of externally visible actions, and the exit code when the builtin
terminated the process (only `exit`). -/
structure BuiltinOut where
  ret : Int
  jobs : List Job
  trace : List Event
  exited : Option Nat
deriving DecidableEq, Repr

/-- One line of the `jobs` builtin's output (source lines 173-175). -/
def jobs_line (j : Job) : String :=
  let st := if j.status = 0 then "Running" else if j.status = 1 then "Stopped" else "Done"
  "[" ++ toString j.id ++ "] " ++ st ++ "\t" ++ j.cmdline ++ " (pgid=" ++ toString j.pgid ++ ")"

/-- Body of the `fg` builtin after the target job at index `idx` has
been resolved (source lines 186-199): clear the background flag, send
SIGCONT, hand the terminal to the job, block in `waitpid`, reclaim the
terminal, record Stopped or Done from the wait status, prune. -/
def fg_run (jobs : List Job) (idx : Nat) (shell_pgid : Nat) (o : WaitOutcome) : BuiltinOut :=
  let jobs1 := updateAt jobs idx (fun j => { j with is_background := false })
  let pgid := match jobs1.get? idx with | some j => j.pgid | none => 0
  let newSt : Nat := match o with | .stoppedW => 1 | _ => 2
  let jobs2 := updateAt jobs1 idx (fun j => { j with status := newSt })
  { ret := 0, jobs := remove_completed_jobs jobs2,
    trace := [Event.sigcont pgid, Event.handToGroup pgid, Event.waitOn pgid,
              Event.reclaim shell_pgid, Event.setStatus newSt],
    exited := none }

/-- The job-table mutation of the `bg` builtin (source lines 205, 207):
set the background flag and set `status = 0`, through the resolved
pointer. -/
def bg_mutate (jobs : List Job) (idx : Nat) : List Job :=
  updateAt jobs idx (fun j => { j with is_background := true, status := 0 })

/-- Body of the `bg` builtin after resolution (source lines 205-209). -/
def bg_run (jobs : List Job) (idx : Nat) : BuiltinOut :=
  let jobs1 := bg_mutate jobs idx
  let j := match jobs1.get? idx with | some j => j | none => ⟨0, 0, "", false, 0⟩
  { ret := 0, jobs := jobs1,
    trace := [Event.sigcont j.pgid,
              Event.outMsg ("[" ++ toString j.id ++ "] " ++ j.cmdline ++ " &")],
    exited := none }

/-- `run_builtin` (source lines 163-212).  `cd` is modelled as its
return value 0 (its `chdir` effect is outside the job table); `exit`
terminates the process with status 0; a `.error` result models an
uncaught `std::stoi` exception escaping from `fg`/`bg`. -/
def run_builtin (argv : List String) (jobs : List Job) (shell_pgid : Nat)
    (o : WaitOutcome) : Except Unit BuiltinOut :=
  match argv with
  | [] => .ok ⟨0, jobs, [], none⟩
  | cmd :: _ =>
    if cmd = "cd" then .ok ⟨0, jobs, [], none⟩
    else if cmd = "exit" then .ok ⟨0, jobs, [], some 0⟩
    else if cmd = "jobs" then
      .ok ⟨0, remove_completed_jobs jobs, jobs.map (fun j => Event.outMsg (jobs_line j)), none⟩
    else if cmd = "fg" then
      match parse_job_arg argv with
      | .error e => .error e
      | .ok id =>
        match resolve_job_index jobs id with
        | none => .ok ⟨-1, jobs, [Event.errMsg "fg: no such job\n"], none⟩
        | some idx => .ok (fg_run jobs idx shell_pgid o)
    else if cmd = "bg" then
      match parse_job_arg argv with
      | .error e => .error e
      | .ok id =>
        match resolve_job_index jobs id with
        | none => .ok ⟨-1, jobs, [Event.errMsg "bg: no such job\n"], none⟩
        | some idx => .ok (bg_run jobs idx)
    else .ok ⟨0, jobs, [], none⟩

/-- Result of the parent side of `launch_pipeline`. -/
structure LaunchOut where
  jobs : List Job
  next_job_id : Nat
  trace : List Event
deriving DecidableEq, Repr

/-- Parent side of `launch_pipeline` after all stages are forked
(source lines 285-309): register the job; if background, announce it;
if foreground, hand the terminal to the group, block in `waitpid` until
the group stops or is fully accounted for, reclaim the terminal, and
only then interpret the wait status (Stopped vs Done plus prune). -/
def launch_parent (jobs : List Job) (next_job_id : Nat) (pgid : Nat)
    (cmdline : String) (background : Bool) (shell_pgid : Nat)
    (o : WaitOutcome) : LaunchOut :=
  let r := add_job jobs next_job_id pgid cmdline background
  let jobs1 := r.1
  let jid := r.2.1
  let nid := r.2.2
  if background then
    { jobs := jobs1, next_job_id := nid,
      trace := [Event.outMsg ("[" ++ toString jid ++ "] " ++ toString pgid)] }
  else
    match o with
    | .stoppedW =>
      { jobs := mark_job_as_stopped jobs1 pgid, next_job_id := nid,
        trace := [Event.handToGroup pgid, Event.waitOn pgid, Event.reclaim shell_pgid,
                  Event.markStopped pgid,
                  Event.errMsg ("\n[" ++ toString jid ++ "] Stopped\t" ++ cmdline ++ "\n")] }
    | _ =>
      { jobs := remove_completed_jobs (mark_job_as_done jobs1 pgid), next_job_id := nid,
        trace := [Event.handToGroup pgid, Event.waitOn pgid, Event.reclaim shell_pgid,
                  Event.markDone pgid] }

/-- What `waitpid(-1, WNOHANG | WUNTRACED | WCONTINUED)` reported for
one reaped process. -/
inductive WaitKind
  | exitedK
  | signaledK
  | stoppedK
  | continuedK
deriving DecidableEq, Repr

/-- One pending child-state change collected by `sigchld_handler`:
the reaped pid, the result of `getpgid(pid)` (`none` models a failure,
i.e. `pgid <= 0`), the kind of state change, and the `errno` value the
`waitpid`/`getpgid` calls for this event leave behind. -/
structure ChldEvent where
  pid : Nat
  pgid : Option Nat
  kind : WaitKind
  errnoEffect : Int
deriving DecidableEq, Repr

/-- Job-table update for one reaped child (source lines 320-330):
exited or signaled marks the group Done, stopped marks it Stopped,
continued sets the first matching job back to Running; a failed
`getpgid` skips the update. -/
def sigchld_step (jobs : List Job) (e : ChldEvent) : List Job :=
  match e.pgid with
  | none => jobs
  | some pgid =>
    match e.kind with
    | .exitedK => mark_job_as_done jobs pgid
    | .signaledK => mark_job_as_done jobs pgid
    | .stoppedK => mark_job_as_stopped jobs pgid
    | .continuedK => set_first_running jobs pgid

/-- `sigchld_handler` (source lines 313-333): save `errno`, drain every
pending state change with non-blocking `waitpid` (the finite `events`
list is exactly the sequence of positive returns), update the job table
for each, and restore the saved `errno` before returning.  Returns the
final `errno` and the updated table. -/
def sigchld_handler (errno0 : Int) (events : List ChldEvent)
    (jobs : List Job) : Int × List Job :=
  let saved_errno := errno0
  let res := events.foldl
    (fun (st : Int × List Job) (e : ChldEvent) => (e.errnoEffect, sigchld_step st.2 e))
    (errno0, jobs)
  (saved_errno, res.2)

/-- The empty `Command()` value (source line 101). -/
def emptyCommand : Command := ⟨[], "", "", false⟩

/-- Loop body of `parse_pipeline` (source lines 97-114), recursing over
the remaining tokens with the current segment `cur`, the pipeline built
so far, and the background flag.  On `|` the segment is kept only when
its argv is non-empty; `<`, `>` and `>>` consume the following token as
the file name when one exists; at the end the final segment is kept when
any of argv, infile, outfile is non-empty. -/
def parse_pipeline_loop : List String → Command → List Command → Bool → List Command × Bool
  | [], cur, acc, bg =>
    (if cur.argv ≠ [] ∨ cur.infile ≠ "" ∨ cur.outfile ≠ "" then acc ++ [cur] else acc, bg)
  | tk :: rest, cur, acc, bg =>
    if tk = "|" then
      parse_pipeline_loop rest emptyCommand
        (if cur.argv ≠ [] then acc ++ [cur] else acc) bg
    else if tk = "<" then
      match rest with
      | f :: rest2 => parse_pipeline_loop rest2 { cur with infile := f } acc bg
      | [] => parse_pipeline_loop [] cur acc bg
    else if tk = ">" ∨ tk = ">>" then
      let cur2 := if tk = ">>" then { cur with append := true } else cur
      match rest with
      | f :: rest2 => parse_pipeline_loop rest2 { cur2 with outfile := f } acc bg
      | [] => parse_pipeline_loop [] cur2 acc bg
    else if tk = "&" then
      parse_pipeline_loop rest cur acc true
    else
      parse_pipeline_loop rest { cur with argv := cur.argv ++ [tk] } acc bg

/-- `parse_pipeline` (source lines 92-115). -/
def parse_pipeline (toks : List String) : List Command × Bool :=
  parse_pipeline_loop toks emptyCommand [] false

/-- Linux `fcntl` flag values used at source lines 250 and 255. -/
def O_RDONLY : Nat := 0

/-- Open for writing only. -/
def O_WRONLY : Nat := 1

/-- Create the file when missing. -/
def O_CREAT : Nat := 64

/-- Truncate an existing file. -/
def O_TRUNC : Nat := 512

/-- Append to an existing file. -/
def O_APPEND : Nat := 1024

/-- Output-redirection flags (source line 255):
`O_WRONLY | O_CREAT | (append ? O_APPEND : O_TRUNC)`. -/
def output_open_flags (append : Bool) : Nat :=
  O_WRONLY ||| O_CREAT ||| (if append then O_APPEND else O_TRUNC)

/-- Oracle for the outcomes of `open(2)` in a child. -/
structure FsOracle where
  openInOk : String → Bool
  openOutOk : String → Bool

/-- Syscalls a child stage performs that the claims talk about. -/
inductive ChildStep
  | openInfile (path : String) (flags : Nat)
  | openOutfile (path : String) (flags : Nat) (mode : Nat)
  | ranBuiltin (argv : List String)
deriving DecidableEq, Repr

/-- How a child stage ends: a plain `exit`, replacement of the image by
an external program via `execvp`, or abnormal termination by an uncaught
exception escaping a builtin. -/
inductive ChildResult
  | exit (code : Nat)
  | exec (prog : String) (argv : List String)
  | abortC
deriving DecidableEq, Repr

/-- Exec step of a child stage (source lines 263-273): an empty argv
exits 0; a builtin name runs `run_builtin` in-process and then calls
`exit(0)` (discarding the builtin's return value); anything else is
passed to `execvp`. -/
def child_stage_exec (t : List ChildStep) (c : Command) (jobs : List Job)
    (shell_pgid : Nat) (o : WaitOutcome) : List ChildStep × ChildResult :=
  match c.argv with
  | [] => (t, ChildResult.exit 0)
  | a :: rest =>
    if is_builtin (a :: rest) then
      match run_builtin (a :: rest) jobs shell_pgid o with
      | .ok _ => (t ++ [ChildStep.ranBuiltin (a :: rest)], ChildResult.exit 0)
      | .error _ => (t ++ [ChildStep.ranBuiltin (a :: rest)], ChildResult.abortC)
    else (t, ChildResult.exec a (a :: rest))

/-- Output-redirection step of a child stage (source lines 254-259):
only the last stage (`i = n-1`) with a non-empty outfile opens it with
`output_open_flags` and mode 0644; a failed open exits 1. -/
def child_stage_out (t : List ChildStep) (c : Command) (i n : Nat)
    (fs : FsOracle) (jobs : List Job) (shell_pgid : Nat) (o : WaitOutcome) :
    List ChildStep × ChildResult :=
  if i = n - 1 ∧ c.outfile ≠ "" then
    let fl := output_open_flags c.append
    if fs.openOutOk c.outfile then
      child_stage_exec (t ++ [ChildStep.openOutfile c.outfile fl 420]) c jobs shell_pgid o
    else (t ++ [ChildStep.openOutfile c.outfile fl 420], ChildResult.exit 1)
  else child_stage_exec t c jobs shell_pgid o

/-- Child body for stage `i` of an `n`-stage pipeline (source lines
244-273; the pipe-fd plumbing, process-group join and signal resets of
lines 235-247 and 260-261 are not modelled as they carry no claim):
input redirection only at the first stage (`O_RDONLY`, failure exits 1),
then output redirection, then the exec step. -/
def child_stage (c : Command) (i n : Nat) (fs : FsOracle) (jobs : List Job)
    (shell_pgid : Nat) (o : WaitOutcome) : List ChildStep × ChildResult :=
  if i = 0 ∧ c.infile ≠ "" then
    if fs.openInOk c.infile then
      child_stage_out [ChildStep.openInfile c.infile O_RDONLY] c i n fs jobs shell_pgid o
    else ([ChildStep.openInfile c.infile O_RDONLY], ChildResult.exit 1)
  else child_stage_out [] c i n fs jobs shell_pgid o

/-- The job table has pairwise distinct process-group ids. -/
def UniquePgid (jobs : List Job) : Prop :=
  (jobs.map Job.pgid).Nodup

/-- `mark_job_as_done` does not change any pgid. -/
theorem map_pgid_mark_job_as_done (jobs : List Job) (p : Nat) :
    (mark_job_as_done jobs p).map Job.pgid = jobs.map Job.pgid := by
  induction jobs with
  | nil => rfl
  | cons j rest ih =>
    simp only [mark_job_as_done, List.map_cons] at *
    by_cases h : j.pgid = p <;> simp [h, ih]

/-- `mark_job_as_stopped` does not change any pgid. -/
theorem map_pgid_mark_job_as_stopped (jobs : List Job) (p : Nat) :
    (mark_job_as_stopped jobs p).map Job.pgid = jobs.map Job.pgid := by
  induction jobs with
  | nil => rfl
  | cons j rest ih =>
    simp only [mark_job_as_stopped, List.map_cons] at *
    by_cases h : j.pgid = p <;> simp [h, ih]

/-- `set_first_running` does not change any pgid. -/
theorem map_pgid_set_first_running (jobs : List Job) (p : Nat) :
    (set_first_running jobs p).map Job.pgid = jobs.map Job.pgid := by
  induction jobs with
  | nil => rfl
  | cons j rest ih =>
    simp only [set_first_running]
    by_cases h : j.pgid = p <;> simp [h, ih]

/-- `updateAt` with a pgid-preserving update does not change any pgid. -/
theorem map_pgid_updateAt (jobs : List Job) (i : Nat) (f : Job → Job)
    (hf : ∀ j, (f j).pgid = j.pgid) :
    (updateAt jobs i f).map Job.pgid = jobs.map Job.pgid := by
  induction jobs generalizing i with
  | nil => rfl
  | cons j rest ih =>
    cases i with
    | zero => simp [updateAt, hf]
    | succ k => simp [updateAt, ih]

/-- Filtering preserves distinctness of pgids. -/
theorem uniquePgid_filter (jobs : List Job) (p : Job → Bool)
    (h : UniquePgid jobs) : UniquePgid (jobs.filter p) := by
  exact List.Nodup.sublist (List.Sublist.map Job.pgid (List.filter_sublist jobs)) h

/-- With pairwise-distinct pgids, at most one job carries any given pgid. -/
theorem uniquePgid_count_le_one (jobs : List Job) (h : UniquePgid jobs) (p : Nat) :
    (jobs.filter (fun j => j.pgid == p)).length ≤ 1 := by
  induction jobs with
  | nil => simp
  | cons j rest ih =>
    simp only [UniquePgid, List.map_cons, List.nodup_cons] at h
    by_cases hjp : j.pgid = p
    · have hnone : rest.filter (fun x => x.pgid == p) = [] := by
        apply List.filter_eq_nil_iff.mpr
        intro a ha
        simp only [beq_iff_eq]
        intro hap
        exact h.1 (by
          rw [← hjp] at hap
          exact hap ▸ List.mem_map_of_mem Job.pgid ha)
      simp [List.filter_cons, hjp, hnone]
    · simpa [List.filter_cons, hjp] using ih h.2

/-- Membership in an `updateAt` result: each element is an original
element or the image of the updated original element. -/
theorem mem_updateAt (jobs : List Job) (i : Nat) (f : Job → Job) (j : Job)
    (h : j ∈ updateAt jobs i f) : (∃ x ∈ jobs, j = f x) ∨ j ∈ jobs := by
  induction jobs generalizing i with
  | nil => simp [updateAt] at h
  | cons a rest ih =>
    cases i with
    | zero =>
      simp only [updateAt, List.mem_cons] at h
      rcases h with h | h
      · exact Or.inl ⟨a, List.mem_cons_self a rest, h⟩
      · exact Or.inr (List.mem_cons_of_mem a h)
    | succ k =>
      simp only [updateAt, List.mem_cons] at h
      rcases h with h | h
      · exact Or.inr (h ▸ List.mem_cons_self a rest)
      · rcases ih k h with ⟨x, hx, hj⟩ | h2
        · exact Or.inl ⟨x, List.mem_cons_of_mem a hx, hj⟩
        · exact Or.inr (List.mem_cons_of_mem a h2)

/-- Two updates at the same position compose. -/
theorem updateAt_updateAt (jobs : List Job) (i : Nat) (f g : Job → Job) :
    updateAt (updateAt jobs i f) i g = updateAt jobs i (fun x => g (f x)) := by
  induction jobs generalizing i with
  | nil => rfl
  | cons a rest ih =>
    cases i with
    | zero => rfl
    | succ k => simp [updateAt, ih]

/-- Membership in `mark_job_as_done`: Done, or an untouched original. -/
theorem mem_mark_job_as_done (jobs : List Job) (p : Nat) (j : Job)
    (h : j ∈ mark_job_as_done jobs p) : j.status = 2 ∨ j ∈ jobs := by
  simp only [mark_job_as_done, List.mem_map] at h
  rcases h with ⟨x, hx, hj⟩
  by_cases hp : x.pgid = p
  · simp only [hp, if_true] at hj
    exact Or.inl (by rw [← hj])
  · simp only [hp, if_false] at hj
    exact Or.inr (hj ▸ hx)

/-- Membership in `mark_job_as_stopped`: Stopped, or an untouched original. -/
theorem mem_mark_job_as_stopped (jobs : List Job) (p : Nat) (j : Job)
    (h : j ∈ mark_job_as_stopped jobs p) : j.status = 1 ∨ j ∈ jobs := by
  simp only [mark_job_as_stopped, List.mem_map] at h
  rcases h with ⟨x, hx, hj⟩
  by_cases hp : x.pgid = p
  · simp only [hp, if_true] at hj
    exact Or.inl (by rw [← hj])
  · simp only [hp, if_false] at hj
    exact Or.inr (hj ▸ hx)

/-- Membership in `set_first_running`: Running, or an untouched original. -/
theorem mem_set_first_running (jobs : List Job) (p : Nat) (j : Job)
    (h : j ∈ set_first_running jobs p) : j.status = 0 ∨ j ∈ jobs := by
  induction jobs with
  | nil => simp [set_first_running] at h
  | cons a rest ih =>
    simp only [set_first_running] at h
    by_cases hp : a.pgid = p
    · simp only [hp, if_true, List.mem_cons] at h
      rcases h with h | h
      · exact Or.inl (by rw [h])
      · exact Or.inr (List.mem_cons_of_mem a h)
    · simp only [hp, if_false, List.mem_cons] at h
      rcases h with h | h
      · exact Or.inr (h ▸ List.mem_cons_self a rest)
      · rcases ih h with h1 | h2
        · exact Or.inl h1
        · exact Or.inr (List.mem_cons_of_mem a h2)

/-- A status write that stores the value already present is the identity. -/
theorem job_with_status_self (j : Job) (s : Nat) (h : j.status = s) :
    { j with status := s } = j := by
  cases j
  cases h
  rfl

/-- Marking Done twice equals marking once. -/
theorem mark_job_as_done_idem (jobs : List Job) (p : Nat) :
    mark_job_as_done (mark_job_as_done jobs p) p = mark_job_as_done jobs p := by
  induction jobs with
  | nil => rfl
  | cons j rest ih =>
    simp only [mark_job_as_done, List.map_cons] at *
    by_cases h : j.pgid = p <;> simp [h, ih]

/-- Marking Stopped twice equals marking once. -/
theorem mark_job_as_stopped_idem (jobs : List Job) (p : Nat) :
    mark_job_as_stopped (mark_job_as_stopped jobs p) p = mark_job_as_stopped jobs p := by
  induction jobs with
  | nil => rfl
  | cons j rest ih =>
    simp only [mark_job_as_stopped, List.map_cons] at *
    by_cases h : j.pgid = p <;> simp [h, ih]

/-- Marking Done is the identity when every matching job is already Done. -/
theorem mark_job_as_done_fixed (jobs : List Job) (p : Nat)
    (h : ∀ j ∈ jobs, j.pgid = p → j.status = 2) :
    mark_job_as_done jobs p = jobs := by
  induction jobs with
  | nil => rfl
  | cons j rest ih =>
    simp only [mark_job_as_done, List.map_cons]
    have hrest := ih (fun x hx => h x (List.mem_cons_of_mem j hx))
    by_cases hj : j.pgid = p
    · rw [if_pos hj, job_with_status_self j 2 (h j (List.mem_cons_self j rest) hj)]
      simpa [mark_job_as_done] using hrest
    · rw [if_neg hj]
      simpa [mark_job_as_done] using hrest

/-- Marking Stopped is the identity when every matching job is already
Stopped. -/
theorem mark_job_as_stopped_fixed (jobs : List Job) (p : Nat)
    (h : ∀ j ∈ jobs, j.pgid = p → j.status = 1) :
    mark_job_as_stopped jobs p = jobs := by
  induction jobs with
  | nil => rfl
  | cons j rest ih =>
    simp only [mark_job_as_stopped, List.map_cons]
    have hrest := ih (fun x hx => h x (List.mem_cons_of_mem j hx))
    by_cases hj : j.pgid = p
    · rw [if_pos hj, job_with_status_self j 1 (h j (List.mem_cons_self j rest) hj)]
      simpa [mark_job_as_stopped] using hrest
    · rw [if_neg hj]
      simpa [mark_job_as_stopped] using hrest

/-- C8: `mark_job_as_done` and `mark_job_as_stopped` are idempotent and
keyed by process-group id: applying either twice to any job table equals
applying it once, and applying it when every job of that pgid already
carries the target state leaves the table unchanged, so the synchronous
wait path and the asynchronous reconciler can apply them in either
order. -/
theorem c8_mark_idempotent_keyed (jobs : List Job) (p : Nat) :
    mark_job_as_done (mark_job_as_done jobs p) p = mark_job_as_done jobs p ∧
    mark_job_as_stopped (mark_job_as_stopped jobs p) p = mark_job_as_stopped jobs p ∧
    ((∀ j ∈ jobs, j.pgid = p → j.status = 2) → mark_job_as_done jobs p = jobs) ∧
    ((∀ j ∈ jobs, j.pgid = p → j.status = 1) → mark_job_as_stopped jobs p = jobs) :=
  ⟨mark_job_as_done_idem jobs p, mark_job_as_stopped_idem jobs p,
   mark_job_as_done_fixed jobs p, mark_job_as_stopped_fixed jobs p⟩

/-- C8 witness: the properties at a concrete table. -/
theorem c8_mark_idempotent_keyed_witness :
    mark_job_as_done (mark_job_as_done [(⟨1, 5, "sleep 9", true, 0⟩ : Job)] 5) 5
      = mark_job_as_done [(⟨1, 5, "sleep 9", true, 0⟩ : Job)] 5 ∧
    mark_job_as_done [(⟨1, 5, "sleep 9", true, 2⟩ : Job)] 5
      = [(⟨1, 5, "sleep 9", true, 2⟩ : Job)] :=
  ⟨(c8_mark_idempotent_keyed [⟨1, 5, "sleep 9", true, 0⟩] 5).1,
   (c8_mark_idempotent_keyed [⟨1, 5, "sleep 9", true, 2⟩] 5).2.2.1 (by decide)⟩

/-- The folded state's job component ignores the errno component. -/
theorem sigchld_foldl_snd (events : List ChldEvent) (st : Int × List Job) :
    (events.foldl
      (fun (st : Int × List Job) (e : ChldEvent) => (e.errnoEffect, sigchld_step st.2 e))
      st).2 = events.foldl sigchld_step st.2 := by
  induction events generalizing st with
  | nil => rfl
  | cons e rest ih => simp only [List.foldl_cons, ih]

/-- C9: the child-state-change handler restores the ambient `errno` it
entered with, whatever the reaped events did to it in between, and its
job-table effect is exactly one `sigchld_step` per pending event (a
single bounded, non-blocking pass over the `WNOHANG` results). -/
theorem c9_sigchld_errno_frame (errno0 : Int) (events : List ChldEvent)
    (jobs : List Job) :
    (sigchld_handler errno0 events jobs).1 = errno0 ∧
    (sigchld_handler errno0 events jobs).2 = events.foldl sigchld_step jobs :=
  ⟨rfl, sigchld_foldl_snd events (errno0, jobs)⟩

/-- C1 counterexample: Done is not terminal.  With the single job of
group 5 already recorded Done (e.g. after one pipeline member exited),
a stop notification for another member makes `sigchld_handler` move the
job Done -> Stopped, and the `bg` builtin applied to the same Done job
moves it Done -> Running — both transitions the claim rules out. -/
theorem c1_done_state_reentered_counterexample :
    (⟨1, 5, "sleep 100 | true", true, 2⟩ : Job).status = 2 ∧
    (sigchld_handler 0 [⟨7, some 5, WaitKind.stoppedK, 3⟩]
        [⟨1, 5, "sleep 100 | true", true, 2⟩]).2
      = [⟨1, 5, "sleep 100 | true", true, 1⟩] ∧
    run_builtin ["bg", "1"] [⟨1, 5, "sleep 100 | true", true, 2⟩] 10 WaitOutcome.exited
      = Except.ok ⟨0, [⟨1, 5, "sleep 100 | true", true, 0⟩],
          [Event.sigcont 5, Event.outMsg "[1] sleep 100 | true &"], none⟩ :=
  ⟨rfl, rfl, rfl⟩

/-- C1 amended: every state-mutating operation assigns its target state
unconditionally, ignoring the previous state: `mark_job_as_done` only
produces Done jobs or untouched jobs, `mark_job_as_stopped` Stopped or
untouched, the continued branch and the `bg` mutation Running or
untouched, and `fg` Stopped/Done or untouched.  In particular the
claimed edges Running -> Stopped -> Running -> Done all hold, but Done
is not terminal: Done -> Stopped (stop after a member exited) and
Done -> Running (`bg` or a continue notification on a Done job) also
occur, as the counterexample shows. -/
theorem c1_job_state_transitions_amended (jobs : List Job) (pgid : Nat)
    (idx : Nat) (shell_pgid : Nat) (o : WaitOutcome) :
    (∀ j ∈ mark_job_as_done jobs pgid, j.status = 2 ∨ j ∈ jobs) ∧
    (∀ j ∈ mark_job_as_stopped jobs pgid, j.status = 1 ∨ j ∈ jobs) ∧
    (∀ j ∈ set_first_running jobs pgid, j.status = 0 ∨ j ∈ jobs) ∧
    (∀ j ∈ (fg_run jobs idx shell_pgid o).jobs, j.status = 1 ∨ j.status = 2 ∨ j ∈ jobs) ∧
    (∀ j ∈ bg_mutate jobs idx, j.status = 0 ∨ j ∈ jobs) := by
  refine ⟨fun j h => mem_mark_job_as_done jobs pgid j h,
          fun j h => mem_mark_job_as_stopped jobs pgid j h,
          fun j h => mem_set_first_running jobs pgid j h, ?_, ?_⟩
  · intro j h
    simp only [fg_run, remove_completed_jobs] at h
    have h2 := List.mem_of_mem_filter h
    rw [updateAt_updateAt] at h2
    rcases mem_updateAt _ _ _ _ h2 with ⟨x, _, hj⟩ | horig
    · subst hj
      cases o <;> simp
    · exact Or.inr (Or.inr horig)
  · intro j h
    rcases mem_updateAt _ _ _ _ h with ⟨x, _, hj⟩ | horig
    · subst hj
      simp
    · exact Or.inr horig

/-- C1 witness: the amended transition property at a concrete table. -/
theorem c1_job_state_transitions_witness :
    (⟨1, 5, "cat", false, 2⟩ : Job).status = 2 ∨ (⟨1, 5, "cat", false, 2⟩ : Job) ∈
      [(⟨1, 5, "cat", false, 0⟩ : Job)] :=
  (c1_job_state_transitions_amended [⟨1, 5, "cat", false, 0⟩] 5 0 10 WaitOutcome.exited).1
    ⟨1, 5, "cat", false, 2⟩ (by decide)

/-- C2: for every foreground pipeline launch the shell's action sequence
starts with handing the terminal to the job's group, then the blocking
wait, then reclaiming the terminal for the shell's own group — and only
after that come the status-interpretation actions (mark Stopped/Done and
messages), in every wait outcome (exited, signaled, stopped).  The `fg`
builtin follows the same ordering: terminal handoff strictly before its
blocking wait, reclaim immediately after, status recorded only after the
reclaim. -/
theorem c2_terminal_handoff_ordering (jobs : List Job) (nid pgid : Nat)
    (cmd : String) (shell_pgid : Nat) (o : WaitOutcome) :
    (∃ rest, (launch_parent jobs nid pgid cmd false shell_pgid o).trace
        = [Event.handToGroup pgid, Event.waitOn pgid, Event.reclaim shell_pgid] ++ rest ∧
      ∀ e ∈ rest, e = Event.markStopped pgid ∨ e = Event.markDone pgid ∨
        ∃ s, e = Event.errMsg s) ∧
    (∀ idx, ∃ p st, (fg_run jobs idx shell_pgid o).trace
        = [Event.sigcont p, Event.handToGroup p, Event.waitOn p,
           Event.reclaim shell_pgid, Event.setStatus st]) := by
  constructor
  · cases o with
    | stoppedW =>
      refine ⟨[Event.markStopped pgid,
               Event.errMsg ("\n[" ++ toString (add_job jobs nid pgid cmd false).2.1
                 ++ "] Stopped\t" ++ cmd ++ "\n")], rfl, ?_⟩
      intro e he
      simp only [List.mem_cons, List.not_mem_nil, or_false] at he
      rcases he with rfl | rfl
      · exact Or.inl rfl
      · exact Or.inr (Or.inr ⟨_, rfl⟩)
    | exited =>
      refine ⟨[Event.markDone pgid], rfl, ?_⟩
      intro e he
      simp only [List.mem_cons, List.not_mem_nil, or_false] at he
      subst he
      exact Or.inr (Or.inl rfl)
    | signaled =>
      refine ⟨[Event.markDone pgid], rfl, ?_⟩
      intro e he
      simp only [List.mem_cons, List.not_mem_nil, or_false] at he
      subst he
      exact Or.inr (Or.inl rfl)
  · intro idx
    exact ⟨_, _, rfl⟩

/-- C2 witness: the ordering at a concrete launch and a concrete `fg`. -/
theorem c2_terminal_handoff_ordering_witness :
    (∃ rest, (launch_parent [] 1 5 "cat" false 100 WaitOutcome.stoppedW).trace
        = [Event.handToGroup 5, Event.waitOn 5, Event.reclaim 100] ++ rest ∧
      ∀ e ∈ rest, e = Event.markStopped 5 ∨ e = Event.markDone 5 ∨
        ∃ s, e = Event.errMsg s) ∧
    (∃ p st, (fg_run [⟨1, 5, "cat", true, 1⟩] 0 100 WaitOutcome.exited).trace
        = [Event.sigcont p, Event.handToGroup p, Event.waitOn p,
           Event.reclaim 100, Event.setStatus st]) :=
  ⟨(c2_terminal_handoff_ordering [] 1 5 "cat" 100 WaitOutcome.stoppedW).1,
   (c2_terminal_handoff_ordering [⟨1, 5, "cat", true, 1⟩] 1 5 "cat" 100 WaitOutcome.exited).2 0⟩

/-- `remove_completed_jobs` preserves distinctness of pgids. -/
theorem uniquePgid_remove_completed (jobs : List Job) (h : UniquePgid jobs) :
    UniquePgid (remove_completed_jobs jobs) :=
  uniquePgid_filter jobs _ h

/-- `updateAt` with a pgid-preserving update preserves distinctness. -/
theorem uniquePgid_updateAt (jobs : List Job) (i : Nat) (f : Job → Job)
    (hf : ∀ j, (f j).pgid = j.pgid) (h : UniquePgid jobs) :
    UniquePgid (updateAt jobs i f) := by
  unfold UniquePgid
  rw [map_pgid_updateAt jobs i f hf]
  exact h

/-- `fg` preserves distinctness of pgids. -/
theorem uniquePgid_fg_run (jobs : List Job) (idx shell_pgid : Nat)
    (o : WaitOutcome) (h : UniquePgid jobs) : UniquePgid (fg_run jobs idx shell_pgid o).jobs := by
  simp only [fg_run]
  exact uniquePgid_remove_completed _
    (uniquePgid_updateAt _ _ _ (fun j => rfl)
      (uniquePgid_updateAt _ _ _ (fun j => rfl) h))

/-- `bg` preserves distinctness of pgids. -/
theorem uniquePgid_bg_run (jobs : List Job) (idx : Nat) (h : UniquePgid jobs) :
    UniquePgid (bg_run jobs idx).jobs := by
  simp only [bg_run, bg_mutate]
  exact uniquePgid_updateAt _ _ _ (fun j => rfl) h

/-- Any `run_builtin` invocation that returns preserves distinctness of
pgids in the job table. -/
theorem uniquePgid_run_builtin (argv : List String) (jobs : List Job)
    (shell_pgid : Nat) (o : WaitOutcome) (out : BuiltinOut)
    (hok : run_builtin argv jobs shell_pgid o = Except.ok out)
    (h : UniquePgid jobs) : UniquePgid out.jobs := by
  cases argv with
  | nil =>
    simp only [run_builtin] at hok
    cases hok
    exact h
  | cons cmd rest =>
    simp only [run_builtin] at hok
    by_cases h1 : cmd = "cd"
    · rw [if_pos h1] at hok; cases hok; exact h
    · rw [if_neg h1] at hok
      by_cases h2 : cmd = "exit"
      · rw [if_pos h2] at hok; cases hok; exact h
      · rw [if_neg h2] at hok
        by_cases h3 : cmd = "jobs"
        · rw [if_pos h3] at hok; cases hok
          exact uniquePgid_remove_completed jobs h
        · rw [if_neg h3] at hok
          by_cases h4 : cmd = "fg"
          · rw [if_pos h4] at hok
            cases hp : parse_job_arg (cmd :: rest) with
            | error e =>
              simp only [hp] at hok
              exact Except.noConfusion hok
            | ok id =>
              simp only [hp] at hok
              cases hr : resolve_job_index jobs id with
              | none => simp only [hr] at hok; cases hok; exact h
              | some idx =>
                simp only [hr] at hok; cases hok
                exact uniquePgid_fg_run jobs idx shell_pgid o h
          · rw [if_neg h4] at hok
            by_cases h5 : cmd = "bg"
            · rw [if_pos h5] at hok
              cases hp : parse_job_arg (cmd :: rest) with
              | error e =>
                simp only [hp] at hok
                exact Except.noConfusion hok
              | ok id =>
                simp only [hp] at hok
                cases hr : resolve_job_index jobs id with
                | none => simp only [hr] at hok; cases hok; exact h
                | some idx =>
                  simp only [hr] at hok; cases hok
                  exact uniquePgid_bg_run jobs idx h
            · rw [if_neg h5] at hok; cases hok; exact h

/-- C3: with pairwise-distinct pgids — hence at most one job per live
process-group id, counted by the final conjunct — every table operation
preserves the invariant: `add_job` whenever the OS-supplied group id is
fresh (a forked pid cannot equal the group id of any live group),
`mark_job_as_done`, `mark_job_as_stopped`, `remove_completed_jobs`, and
every returning `fg`/`bg`/`jobs` builtin invocation. -/
theorem c3_unique_live_pgid_preserved (jobs : List Job) (nid p : Nat)
    (cmd : String) (bgf : Bool) (argv : List String) (shell_pgid : Nat)
    (o : WaitOutcome) (out : BuiltinOut) :
    (UniquePgid jobs → p ∉ jobs.map Job.pgid →
      UniquePgid (add_job jobs nid p cmd bgf).1) ∧
    (UniquePgid jobs → UniquePgid (mark_job_as_done jobs p)) ∧
    (UniquePgid jobs → UniquePgid (mark_job_as_stopped jobs p)) ∧
    (UniquePgid jobs → UniquePgid (remove_completed_jobs jobs)) ∧
    (UniquePgid jobs → run_builtin argv jobs shell_pgid o = Except.ok out →
      UniquePgid out.jobs) ∧
    (UniquePgid jobs → ∀ q, (jobs.filter (fun j => j.pgid == q)).length ≤ 1) := by
  refine ⟨?_, ?_, ?_, ?_, ?_, ?_⟩
  · intro h hfresh
    simp only [add_job, UniquePgid, List.map_append, List.map_cons, List.map_nil]
    rw [List.nodup_append]
    exact ⟨h, List.nodup_singleton p, by
      intro a ha hb
      simp only [List.mem_cons, List.not_mem_nil, or_false] at hb
      subst hb
      exact hfresh ha⟩
  · intro h
    unfold UniquePgid
    rw [map_pgid_mark_job_as_done]
    exact h
  · intro h
    unfold UniquePgid
    rw [map_pgid_mark_job_as_stopped]
    exact h
  · exact fun h => uniquePgid_remove_completed jobs h
  · exact fun h hok => uniquePgid_run_builtin argv jobs shell_pgid o out hok h
  · exact fun h q => uniquePgid_count_le_one jobs h q

/-- C3 witness: the invariant-preservation at a concrete table. -/
theorem c3_unique_live_pgid_witness :
    UniquePgid (add_job [(⟨1, 5, "cat", false, 0⟩ : Job)] 2 9 "ls" false).1 ∧
    ([(⟨1, 5, "cat", false, 0⟩ : Job)].filter (fun j => j.pgid == 5)).length ≤ 1 :=
  ⟨(c3_unique_live_pgid_preserved [⟨1, 5, "cat", false, 0⟩] 2 9 "ls" false []
      10 WaitOutcome.exited ⟨0, [], [], none⟩).1 (by unfold UniquePgid; decide) (by decide),
   (c3_unique_live_pgid_preserved [⟨1, 5, "cat", false, 0⟩] 2 9 "ls" false []
      10 WaitOutcome.exited ⟨0, [], [], none⟩).2.2.2.2.2 (by unfold UniquePgid; decide) 5⟩

/-- C4 counterexample: the claim's scope includes every explicit id not
present in the table, but for `fg 3000000000` (an id absent from every
table, since it exceeds the 32-bit `int` range) `std::stoi` throws
`std::out_of_range`, which nothing catches, so the builtin neither
reports "no such job" nor returns -1 with an unchanged table — the
exception escapes and terminates the shell. -/
theorem c4_out_of_range_id_counterexample :
    stoi "3000000000" = Except.error () ∧
    run_builtin ["fg", "3000000000"] [] 1 WaitOutcome.exited = Except.error () ∧
    (Except.error () : Except Unit BuiltinOut)
      ≠ Except.ok ⟨-1, [], [Event.errMsg "fg: no such job\n"], none⟩ :=
  ⟨rfl, rfl, fun h => Except.noConfusion h⟩

/-- C4 amended: when the job argument of `fg`/`bg` is absent or is one
`std::stoi` accepts (numeric and within `int` range) but resolves to no
job — an explicit id absent from the table, or no argument with an empty
table — the builtin reports "no such job" on stderr, returns -1, and
returns the job table exactly as it was, every field included; an
argument whose parse throws instead escapes as an uncaught exception. -/
theorem c4_fg_bg_no_such_job (jobs : List Job) (shell_pgid : Nat)
    (o : WaitOutcome) (s : String) (id : Int) :
    (parse_job_arg ["fg", s] = Except.ok id → resolve_job_index jobs id = none →
      run_builtin ["fg", s] jobs shell_pgid o
        = Except.ok ⟨-1, jobs, [Event.errMsg "fg: no such job\n"], none⟩) ∧
    (parse_job_arg ["bg", s] = Except.ok id → resolve_job_index jobs id = none →
      run_builtin ["bg", s] jobs shell_pgid o
        = Except.ok ⟨-1, jobs, [Event.errMsg "bg: no such job\n"], none⟩) ∧
    (jobs = [] →
      run_builtin ["fg"] jobs shell_pgid o
          = Except.ok ⟨-1, jobs, [Event.errMsg "fg: no such job\n"], none⟩ ∧
      run_builtin ["bg"] jobs shell_pgid o
          = Except.ok ⟨-1, jobs, [Event.errMsg "bg: no such job\n"], none⟩) := by
  refine ⟨?_, ?_, ?_⟩
  · intro hp hr
    simp [run_builtin, hp, hr]
  · intro hp hr
    simp [run_builtin, hp, hr]
  · intro he
    subst he
    exact ⟨rfl, rfl⟩

/-- C4 witness: `fg 7` and `bg 7` on an empty table. -/
theorem c4_fg_bg_no_such_job_witness :
    run_builtin ["fg", "7"] [] 1 WaitOutcome.exited
      = Except.ok ⟨-1, [], [Event.errMsg "fg: no such job\n"], none⟩ ∧
    run_builtin ["bg", "7"] [] 1 WaitOutcome.exited
      = Except.ok ⟨-1, [], [Event.errMsg "bg: no such job\n"], none⟩ :=
  ⟨(c4_fg_bg_no_such_job [] 1 WaitOutcome.exited "7" 7).1 rfl rfl,
   (c4_fg_bg_no_such_job [] 1 WaitOutcome.exited "7" 7).2.1 rfl rfl⟩

/-- C5: a non-numeric job id makes `fg` call `std::stoi` on a string
with no digits; the resulting `std::invalid_argument` is thrown inside
`run_builtin` with no enclosing handler anywhere in the shell, so
(contrary to the claim as well as the spec's own safety requirement) the
error escapes `run_builtin` instead of being handled locally — in the
real process `std::terminate` then kills the shell's control thread. -/
theorem c5_nonnumeric_job_id_uncaught :
    run_builtin ["fg", "abc"] [] 1 WaitOutcome.exited = Except.error () ∧
    run_builtin ["bg", "%"] [] 1 WaitOutcome.exited = Except.error () ∧
    stoi "abc" = Except.error () :=
  ⟨rfl, rfl, rfl⟩

/-- The exec step only ever appends a `ranBuiltin` record to the trace. -/
theorem mem_child_stage_exec_trace (t : List ChildStep) (c : Command)
    (jobs : List Job) (shell_pgid : Nat) (o : WaitOutcome) (x : ChildStep)
    (h : x ∈ (child_stage_exec t c jobs shell_pgid o).1) :
    x ∈ t ∨ ∃ a, x = ChildStep.ranBuiltin a := by
  unfold child_stage_exec at h
  cases hc : c.argv with
  | nil =>
    rw [hc] at h
    exact Or.inl h
  | cons a rest =>
    rw [hc] at h
    by_cases hb : is_builtin (a :: rest)
    · simp only [hb, if_true] at h
      cases hrb : run_builtin (a :: rest) jobs shell_pgid o with
      | ok out =>
        rw [hrb] at h
        simp only [List.mem_append, List.mem_singleton] at h
        rcases h with h | h
        · exact Or.inl h
        · exact Or.inr ⟨a :: rest, h⟩
      | error e =>
        rw [hrb] at h
        simp only [List.mem_append, List.mem_singleton] at h
        rcases h with h | h
        · exact Or.inl h
        · exact Or.inr ⟨a :: rest, h⟩
    · simp only [hb, if_false] at h
      exact Or.inl h

/-- The output-redirection step only ever appends the `openOutfile` of
the stage's outfile (with the computed flags) or a `ranBuiltin`. -/
theorem mem_child_stage_out_trace (t : List ChildStep) (c : Command)
    (i n : Nat) (fs : FsOracle) (jobs : List Job) (shell_pgid : Nat)
    (o : WaitOutcome) (x : ChildStep)
    (h : x ∈ (child_stage_out t c i n fs jobs shell_pgid o).1) :
    x ∈ t ∨
    (x = ChildStep.openOutfile c.outfile (output_open_flags c.append) 420 ∧
      i = n - 1 ∧ c.outfile ≠ "") ∨
    ∃ a, x = ChildStep.ranBuiltin a := by
  unfold child_stage_out at h
  by_cases hcond : i = n - 1 ∧ c.outfile ≠ ""
  · rw [if_pos hcond] at h
    by_cases hok : fs.openOutOk c.outfile
    · simp only [hok, if_true] at h
      rcases mem_child_stage_exec_trace _ _ _ _ _ _ h with h2 | h2
      · simp only [List.mem_append, List.mem_singleton] at h2
        rcases h2 with h3 | h3
        · exact Or.inl h3
        · exact Or.inr (Or.inl ⟨h3, hcond⟩)
      · exact Or.inr (Or.inr h2)
    · rw [if_neg hok] at h
      simp only [List.mem_append, List.mem_singleton] at h
      rcases h with h3 | h3
      · exact Or.inl h3
      · exact Or.inr (Or.inl ⟨h3, hcond⟩)
  · rw [if_neg hcond] at h
    rcases mem_child_stage_exec_trace _ _ _ _ _ _ h with h2 | h2
    · exact Or.inl h2
    · exact Or.inr (Or.inr h2)

/-- C6: in every child stage, an output redirection is opened write-only
with create plus truncate by default and create plus append exactly when
the stage's `>>` flag is set, with mode 0644, and only ever at the last
stage; an input redirection is opened read-only and only ever at the
first stage; and when the input file cannot be opened the stage performs
nothing further and terminates immediately with exit status 1. -/
theorem c6_redirection_flags_and_placement (c : Command) (i n : Nat)
    (fs : FsOracle) (jobs : List Job) (shell_pgid : Nat) (o : WaitOutcome) :
    (∀ p fl m, ChildStep.openOutfile p fl m ∈ (child_stage c i n fs jobs shell_pgid o).1 →
      i = n - 1 ∧ p = c.outfile ∧ fl = output_open_flags c.append ∧ m = 420) ∧
    (output_open_flags false = O_WRONLY ||| O_CREAT ||| O_TRUNC ∧
      output_open_flags true = O_WRONLY ||| O_CREAT ||| O_APPEND) ∧
    (∀ p fl, ChildStep.openInfile p fl ∈ (child_stage c i n fs jobs shell_pgid o).1 →
      i = 0 ∧ p = c.infile ∧ fl = O_RDONLY) ∧
    (i = 0 → c.infile ≠ "" → fs.openInOk c.infile = false →
      child_stage c i n fs jobs shell_pgid o
        = ([ChildStep.openInfile c.infile O_RDONLY], ChildResult.exit 1)) := by
  refine ⟨?_, ⟨rfl, rfl⟩, ?_, ?_⟩
  · intro p fl m hmem
    unfold child_stage at hmem
    by_cases h1 : i = 0 ∧ c.infile ≠ ""
    · rw [if_pos h1] at hmem
      by_cases h2 : fs.openInOk c.infile
      · simp only [h2, if_true] at hmem
        rcases mem_child_stage_out_trace _ _ _ _ _ _ _ _ _ hmem with h3 | ⟨h3, h4, h5⟩ | ⟨a, h3⟩
        · simp at h3
        · cases h3
          exact ⟨h4, rfl, rfl, rfl⟩
        · cases h3
      · simp only [h2, if_false] at hmem
        simp at hmem
    · rw [if_neg h1] at hmem
      rcases mem_child_stage_out_trace _ _ _ _ _ _ _ _ _ hmem with h3 | ⟨h3, h4, h5⟩ | ⟨a, h3⟩
      · simp at h3
      · cases h3
        exact ⟨h4, rfl, rfl, rfl⟩
      · cases h3
  · intro p fl hmem
    unfold child_stage at hmem
    by_cases h1 : i = 0 ∧ c.infile ≠ ""
    · rw [if_pos h1] at hmem
      by_cases h2 : fs.openInOk c.infile
      · simp only [h2, if_true] at hmem
        rcases mem_child_stage_out_trace _ _ _ _ _ _ _ _ _ hmem with h3 | ⟨h3, h4, h5⟩ | ⟨a, h3⟩
        · simp only [List.mem_singleton] at h3
          cases h3
          exact ⟨h1.1, rfl, rfl⟩
        · cases h3
        · cases h3
      · rw [if_neg h2] at hmem
        simp only [List.mem_singleton] at hmem
        cases hmem
        exact ⟨h1.1, rfl, rfl⟩
    · rw [if_neg h1] at hmem
      rcases mem_child_stage_out_trace _ _ _ _ _ _ _ _ _ hmem with h3 | ⟨h3, h4, h5⟩ | ⟨a, h3⟩
      · simp at h3
      · cases h3
      · cases h3
  · intro h0 hinf hfail
    unfold child_stage
    rw [if_pos ⟨h0, hinf⟩, hfail]
    rfl

/-- C6 witness: a first stage whose input file fails to open exits 1
after only the failed read-only open. -/
theorem c6_redirection_witness :
    child_stage ⟨["wc"], "in.txt", "out.txt", true⟩ 0 1
        ⟨fun _ => false, fun _ => true⟩ [] 1 WaitOutcome.exited
      = ([ChildStep.openInfile "in.txt" O_RDONLY], ChildResult.exit 1) :=
  (c6_redirection_flags_and_placement ⟨["wc"], "in.txt", "out.txt", true⟩ 0 1
      ⟨fun _ => false, fun _ => true⟩ [] 1 WaitOutcome.exited).2.2.2
    rfl (by decide) rfl

/-- C7 counterexample: a pipeline stage running the builtin `fg` with an
empty job table gets builtin return status -1, yet the child terminates
with exit status 0 — the child always calls `exit(0)` after the builtin,
discarding the builtin's return status, so the claim's "terminates with
the builtin's own return status" is false. -/
theorem c7_builtin_child_exit_status_counterexample :
    run_builtin ["fg"] [] 1 WaitOutcome.exited
      = Except.ok ⟨-1, [], [Event.errMsg "fg: no such job\n"], none⟩ ∧
    child_stage ⟨["fg"], "", "", false⟩ 0 1 ⟨fun _ => true, fun _ => true⟩ []
        1 WaitOutcome.exited
      = ([ChildStep.ranBuiltin ["fg"]], ChildResult.exit 0) ∧
    (-1 : Int) ≠ 0 :=
  ⟨rfl, rfl, by decide⟩

/-- The exec step of a child stage whose program name is a builtin and
whose builtin returns: the builtin runs in-process (never reaching
`execvp`) and the child exits 0. -/
theorem child_stage_exec_builtin (t : List ChildStep) (c : Command)
    (jobs : List Job) (shell_pgid : Nat) (o : WaitOutcome) (out : BuiltinOut)
    (hb : is_builtin c.argv = true)
    (hrun : run_builtin c.argv jobs shell_pgid o = Except.ok out) :
    child_stage_exec t c jobs shell_pgid o
      = (t ++ [ChildStep.ranBuiltin c.argv], ChildResult.exit 0) := by
  unfold child_stage_exec
  cases hc : c.argv with
  | nil =>
    rw [hc] at hb
    simp [is_builtin] at hb
  | cons a rest =>
    rw [hc] at hb hrun
    simp only [hb, if_true, hrun]

/-- C7 amended: for every pipeline stage whose program name matches a
built-in, if the stage's redirections (when present) open successfully
and the builtin returns rather than throwing, the child runs the builtin
in-process instead of searching the executable path and terminates with
exit status 0, discarding the builtin's own return status. -/
theorem c7_builtin_child_amended (c : Command) (i n : Nat) (fs : FsOracle)
    (jobs : List Job) (shell_pgid : Nat) (o : WaitOutcome) (out : BuiltinOut)
    (hb : is_builtin c.argv = true)
    (hrun : run_builtin c.argv jobs shell_pgid o = Except.ok out)
    (hinok : i = 0 → c.infile ≠ "" → fs.openInOk c.infile = true)
    (houtok : i = n - 1 → c.outfile ≠ "" → fs.openOutOk c.outfile = true) :
    ∃ t, child_stage c i n fs jobs shell_pgid o
      = (t ++ [ChildStep.ranBuiltin c.argv], ChildResult.exit 0) := by
  have hexec : ∀ t, child_stage_exec t c jobs shell_pgid o
      = (t ++ [ChildStep.ranBuiltin c.argv], ChildResult.exit 0) :=
    fun t => child_stage_exec_builtin t c jobs shell_pgid o out hb hrun
  unfold child_stage
  by_cases h1 : i = 0 ∧ c.infile ≠ ""
  · rw [if_pos h1]
    simp only [hinok h1.1 h1.2, if_true]
    unfold child_stage_out
    by_cases h2 : i = n - 1 ∧ c.outfile ≠ ""
    · rw [if_pos h2]
      simp only [houtok h2.1 h2.2, if_true, hexec]
      exact ⟨_, rfl⟩
    · rw [if_neg h2, hexec]
      exact ⟨_, rfl⟩
  · rw [if_neg h1]
    unfold child_stage_out
    by_cases h2 : i = n - 1 ∧ c.outfile ≠ ""
    · rw [if_pos h2]
      simp only [houtok h2.1 h2.2, if_true, hexec]
      exact ⟨_, rfl⟩
    · rw [if_neg h2, hexec]
      exact ⟨_, rfl⟩

/-- C7 witness: a `jobs` stage with a successfully opening output
redirection runs the builtin in-process and exits 0. -/
theorem c7_builtin_child_amended_witness :
    ∃ t, child_stage ⟨["jobs"], "", "log.txt", false⟩ 0 1
        ⟨fun _ => true, fun _ => true⟩ [⟨1, 5, "cat", true, 2⟩] 1 WaitOutcome.exited
      = (t ++ [ChildStep.ranBuiltin ["jobs"]], ChildResult.exit 0) :=
  c7_builtin_child_amended ⟨["jobs"], "", "log.txt", false⟩ 0 1
    ⟨fun _ => true, fun _ => true⟩ [⟨1, 5, "cat", true, 2⟩] 1 WaitOutcome.exited
    ⟨0, [], [Event.outMsg (jobs_line ⟨1, 5, "cat", true, 2⟩)], none⟩
    rfl rfl (fun _ h => absurd rfl h) (fun _ _ => rfl)

/-- C10: `parse_pipeline` keeps a trailing segment whose argv is empty
but which carries a redirection (`> f` alone parses to one stage with
empty argv and outfile `f`), while a segment between two pipe tokens
with neither arguments nor redirections is silently dropped; and when
such an empty-argv stage is launched, the child still performs the
output open (create-or-truncate) before exiting with status 0. -/
theorem c10_empty_argv_stage_redirection (f : String) (fs : FsOracle)
    (jobs : List Job) (shell_pgid : Nat) (o : WaitOutcome) :
    (f ≠ "" → parse_pipeline [">", f] = ([⟨[], "", f, false⟩], false)) ∧
    parse_pipeline ["a", "|", "|", "b"]
      = ([⟨["a"], "", "", false⟩, ⟨["b"], "", "", false⟩], false) ∧
    (f ≠ "" → fs.openOutOk f = true →
      child_stage ⟨[], "", f, false⟩ 0 1 fs jobs shell_pgid o
        = ([ChildStep.openOutfile f (output_open_flags false) 420],
           ChildResult.exit 0)) := by
  refine ⟨?_, by decide, ?_⟩
  · intro hf
    simp [parse_pipeline, parse_pipeline_loop, emptyCommand, hf]
  · intro hf hok
    have h1 : ¬((0 : Nat) = 0 ∧ (Command.mk [] "" f false).infile ≠ "") := by
      simp
    unfold child_stage
    rw [if_neg h1]
    unfold child_stage_out
    rw [if_pos ⟨rfl, hf⟩, if_pos hok]
    rfl

/-- C10 witness: the behaviour at the concrete line `> out.txt`. -/
theorem c10_empty_argv_stage_witness :
    parse_pipeline [">", "out.txt"] = ([⟨[], "", "out.txt", false⟩], false) ∧
    child_stage ⟨[], "", "out.txt", false⟩ 0 1 ⟨fun _ => true, fun _ => true⟩
        [] 1 WaitOutcome.exited
      = ([ChildStep.openOutfile "out.txt" (output_open_flags false) 420],
         ChildResult.exit 0) :=
  ⟨(c10_empty_argv_stage_redirection "out.txt" ⟨fun _ => true, fun _ => true⟩
      [] 1 WaitOutcome.exited).1 (by decide),
   (c10_empty_argv_stage_redirection "out.txt" ⟨fun _ => true, fun _ => true⟩
      [] 1 WaitOutcome.exited).2.2 (by decide) rfl⟩
